import Mathlib

/-
Verification of the particle-execution plumber (aquamarine/src/plumber.rs).

The `Plumber` scheduler is embedded shallowly: hash maps become association
lists, the clock and all external collaborators (signature verification,
worker registry, peer scopes, key storage, data store) become fields of an
`Env` record, and the asynchronous completion of actor executions and of the
cleanup future become per-tick oracles inside `Env`.  The `Actor`, `Deadline`
and error types live in repository files that are not part of the extracted
sources, so they are modelled from the specification where noted.
-/

namespace Aqua

abbrev PeerId := Nat
abbrev WorkerId := Nat
abbrev ActorKey := List Nat
abbrev CleanupKey := String × PeerId × List Nat × String

/-- Modelled from the spec: a particle is an immutable signed message with
id, initiator, timestamp, TTL, script, data and signature bytes
(spec section 3; `particle_protocol` is not among the extracted sources). -/
structure Particle where
  id : String
  init_peer_id : PeerId
  timestamp : Nat
  ttl : Nat
  script : String
  pdata : List Nat
  signature : List Nat
deriving DecidableEq

/-- `PeerScope` from `particle_services`: selects the host actor map or a
worker's actor map. -/
inductive PeerScope where
  | host
  | workerId (w : WorkerId)
deriving DecidableEq

/-- Modelled from the spec: the two errors the plumber itself produces
(`aquamarine/src/error.rs` is not among the extracted sources). -/
inductive AquamarineApiError where
  | particleExpired (particle_id : String)
  | signatureVerificationFailed (particle_id : String) (err : String)
deriving DecidableEq

/-- Modelled from the spec: routing effects for peers that do not resolve to
a locally-known scope; surfaced outward through the events queue. -/
structure RemoteRoutingEffects where
  particle : Particle
  next_peers : List PeerId
deriving DecidableEq

/-- Modelled from the spec: routing effects for peers whose scope is locally
known; re-ingested into the plumber in the same tick. -/
structure LocalRoutingEffects where
  particle : Particle
  next_peers : List PeerScope
deriving DecidableEq

abbrev Event := Except AquamarineApiError RemoteRoutingEffects

/-- Modelled from the spec: `Deadline::from(particle)` is
`timestamp + ttl` (spec section 4.5; `deadline.rs` is not among the
extracted sources). -/
def deadline_from (p : Particle) : Nat := p.timestamp + p.ttl

/-- Modelled from the spec: `is_expired(now)` holds when `now >= deadline`. -/
def is_expired_at (deadline now : Nat) : Bool := decide (deadline ≤ now)

/-- Modelled from the spec: the per-signature actor state machine
(spec section 4.2; `actor.rs` is not among the extracted sources).
It owns a FIFO mailbox, an at-most-one in-flight execution flag, its expiry
deadline, the derived particle token and the cleanup key
`(particle id, current peer, signature, deal id or empty)`. -/
structure Actor where
  mailbox : List Particle
  executing : Bool
  deadline : Nat
  particle_token : String
  cleanup_key : CleanupKey
  funcOverride : Option Nat
deriving DecidableEq

/-- Modelled from the spec: `Actor::ingest` appends the particle to the
mailbox. -/
def Actor.ingest (a : Actor) (p : Particle) : Actor :=
  { a with mailbox := a.mailbox ++ [p] }

/-- Modelled from the spec: `Actor::set_function` installs or replaces the
service-function override. -/
def Actor.set_function (a : Actor) (f : Nat) : Actor :=
  { a with funcOverride := some f }

/-- Modelled from the spec: `Actor::is_expired`. -/
def Actor.is_expired (a : Actor) (now : Nat) : Bool := is_expired_at a.deadline now

/-- Modelled from the spec: `Actor::is_executing`. -/
def Actor.is_executing (a : Actor) : Bool := a.executing

/-- Modelled from the spec: `Actor::mailbox_size`. -/
def Actor.mailbox_size (a : Actor) : Nat := a.mailbox.length

/-- Modelled from the spec: the mailbox-popping half of `Actor::poll_next` -
with a VM available and no in-flight execution, the mailbox head becomes the
in-flight particle. -/
def Actor.popNext (a : Actor) : Option (Particle × Actor) :=
  if a.executing then none
  else
    match a.mailbox with
    | [] => none
    | p :: rest => some (p, { a with executing := true, mailbox := rest })

/-- Modelled from the spec: completion of the in-flight execution
(`Actor::poll_completed` returning `Ready`) clears the in-flight state. -/
def Actor.complete (a : Actor) : Actor := { a with executing := false }

/-- Result of a completed actor execution step, as surfaced by
`Actor::poll_completed`: the particle, the interpreter's `next_peers`, and
whether the AVM instance survived (`runtime.1` was `Some`). -/
structure StepResult where
  particle : Particle
  next_peers : List PeerId
  vm_returned : Bool
deriving DecidableEq

/-- The environment: the clock, the external collaborators of the plumber
(spec section 6) and the per-tick oracles for asynchronous completions. -/
structure Env where
  now : Nat
  verify : Particle → Except String Unit
  is_worker_active : WorkerId → Bool
  is_management : PeerId → Bool
  is_host : PeerId → Bool
  host_peer_id : PeerId
  worker_peer : WorkerId → PeerId
  scope : PeerId → Except Unit PeerScope
  get_keypair : PeerScope → Option Nat
  get_deal_id : WorkerId → Except String String
  get_runtime_handle : WorkerId → Option Nat
  sign : List Nat → Except String String
  completed : PeerScope → ActorKey → Option StepResult
  cleanup_ready : Bool
  pool_refill : PeerScope → Nat

/-- `MAX_CLEANUP_KEYS_SIZE` from plumber.rs line 64. -/
def MAX_CLEANUP_KEYS_SIZE : Nat := 1024

/-- The `Plumber` state (plumber.rs lines 66-83): hash maps are embedded as
association lists, VM pools as their free-VM count, the registered waker as
a flag, and calls to `Waker::wake_by_ref` are counted in `wakeups`. -/
structure Plumber where
  events : List Event
  host_actors : List (ActorKey × Actor)
  worker_actors : List (WorkerId × List (ActorKey × Actor))
  host_free_vms : Nat
  worker_pools : List (WorkerId × Nat)
  waker : Bool
  wakeups : Nat
  cleanup_future : Option (List CleanupKey)

/-- Association-list lookup (embeds `HashMap::get`). -/
def alookup {α β : Type} [DecidableEq α] (k : α) : List (α × β) → Option β
  | [] => none
  | (k', v) :: rest => if k' = k then some v else alookup k rest

/-- Association-list in-place modification of an existing entry. -/
def aupdate {α β : Type} [DecidableEq α] (k : α) (f : β → β) : List (α × β) → List (α × β)
  | [] => []
  | (k', v) :: rest => if k' = k then (k', f v) :: rest else (k', v) :: aupdate k f rest

/-- Association-list `entry(k).or_insert(v0)`: ensure an entry exists. -/
def aEnsure {α β : Type} [DecidableEq α] (k : α) (v0 : β) (l : List (α × β)) : List (α × β) :=
  match alookup k l with
  | some _ => l
  | none => l ++ [(k, v0)]

/-- `Plumber::wake` (plumber.rs lines 604-608): wake the registered waker,
if any.  The embedding counts the `wake_by_ref` calls. -/
def wake (st : Plumber) : Plumber :=
  if st.waker then { st with wakeups := st.wakeups + 1 } else st

/-- Install the optional service-function override after the mailbox append
(plumber.rs lines 166-170). -/
def applyFunction (fn : Option Nat) (a : Actor) : Actor :=
  match fn with
  | some f => a.set_function f
  | none => a

/-- Modelled from the spec: `Actor::new` - fresh actor with empty mailbox,
no in-flight execution, the particle's deadline, the derived token and the
cleanup key `(particle id, current peer, signature, deal id or empty)`. -/
def newActor (p : Particle) (currentPeer : PeerId) (deal : Option String) (token : String) : Actor :=
  { mailbox := []
    executing := false
    deadline := deadline_from p
    particle_token := token
    cleanup_key := (p.id, currentPeer, p.signature, deal.getD "")
    funcOverride := none }

/-- `Plumber::create_actor` (plumber.rs lines 252-296): find the actor under
the signature key, or build a fresh one - which requires a keypair for the
scope and signing the particle signature into a token. -/
def create_actor (env : Env) (ps : PeerScope) (currentPeer : PeerId) (deal : Option String)
    (actors : List (ActorKey × Actor)) (key : ActorKey) (p : Particle) :
    Except String (List (ActorKey × Actor)) :=
  match alookup key actors with
  | some _ => Except.ok actors
  | none =>
    match env.get_keypair ps with
    | none => Except.error ("no keypair for scope")
    | some _ =>
      match env.sign p.signature with
      | Except.error e => Except.error e
      | Except.ok token => Except.ok (actors ++ [(key, newActor p currentPeer deal token)])

/-- Host half of `Plumber::get_or_create_actor` followed by the actor
mutation of `ingest` (plumber.rs lines 157-180, 208-221). -/
def ingest_host (env : Env) (p : Particle) (fn : Option Nat) (st : Plumber) : Plumber :=
  match create_actor env PeerScope.host env.host_peer_id none st.host_actors p.signature p with
  | Except.error _ => wake st
  | Except.ok m =>
    wake { st with
      host_actors := aupdate p.signature (fun a => applyFunction fn (Actor.ingest a p)) m }

/-- Worker half of `Plumber::get_or_create_actor` followed by the actor
mutation of `ingest` (plumber.rs lines 157-180, 222-249): the worker bucket
is created by the entry API before the deal-id and runtime-handle lookups,
so it persists even when those fail and the particle is dropped. -/
def ingest_worker (env : Env) (p : Particle) (fn : Option Nat) (w : WorkerId) (st : Plumber) : Plumber :=
  let buckets := aEnsure w [] st.worker_actors
  let st1 := { st with worker_actors := buckets }
  match env.get_deal_id w with
  | Except.error _ => wake st1
  | Except.ok deal =>
    match env.get_runtime_handle w with
    | none => wake st1
    | some _ =>
      match create_actor env (PeerScope.workerId w) (env.worker_peer w) (some deal)
          ((alookup w buckets).getD []) p.signature p with
      | Except.error _ => wake st1
      | Except.ok m =>
        wake { st1 with
          worker_actors :=
            aupdate w
              (fun _ => aupdate p.signature (fun a => applyFunction fn (Actor.ingest a p)) m)
              buckets }

/-- `Plumber::ingest` (plumber.rs lines 119-180): drop expired particles with
a `ParticleExpired` event, drop invalidly signed ones with a
`SignatureVerificationFailed` event, silently drop worker-scoped particles
for inactive workers unless the initiator is a management peer or the host,
and otherwise route the particle to its actor and wake the waker. -/
def ingest (env : Env) (p : Particle) (fn : Option Nat) (peer_scope : PeerScope)
    (st : Plumber) : Plumber :=
  match is_expired_at (deadline_from p) env.now with
  | true =>
    { st with events := st.events ++ [Except.error (AquamarineApiError.particleExpired p.id)] }
  | false =>
    match env.verify p with
    | Except.error err =>
      { st with events :=
          st.events ++ [Except.error (AquamarineApiError.signatureVerificationFailed p.id err)] }
    | Except.ok _ =>
      match peer_scope with
      | PeerScope.host => ingest_host env p fn st
      | PeerScope.workerId w =>
        match (!env.is_worker_active w && !env.is_management p.init_peer_id
            && !env.is_host p.init_peer_id) with
        | true => st
        | false => ingest_worker env p fn w st

/-- `Plumber::cleanup_actors` (plumber.rs lines 551-567): retain an actor
when the cleanup batch is already full, or when it has not expired, or when
it is still executing; otherwise push its cleanup key and remove it. -/
def cleanup_actors (now : Nat) : List (ActorKey × Actor) → List CleanupKey →
    List (ActorKey × Actor) × List CleanupKey
  | [], keys => ([], keys)
  | (k, a) :: rest, keys =>
    if MAX_CLEANUP_KEYS_SIZE ≤ keys.length then
      let r := cleanup_actors now rest keys
      ((k, a) :: r.1, r.2)
    else if !a.is_expired now || a.is_executing then
      let r := cleanup_actors now rest keys
      ((k, a) :: r.1, r.2)
    else
      cleanup_actors now rest (keys ++ [a.cleanup_key])

/-- Inner walk of `Plumber::cleanup_worker_actors` (plumber.rs lines
544-548): clean each worker bucket, dropping buckets that emptied and whose
worker has no VM pool registered. -/
def cleanup_worker_buckets (now : Nat) (pools : List (WorkerId × Nat)) :
    List (WorkerId × List (ActorKey × Actor)) → List CleanupKey →
    List (WorkerId × List (ActorKey × Actor)) × List CleanupKey
  | [], keys => ([], keys)
  | (w, actors) :: rest, keys =>
    let r := cleanup_actors now actors keys
    let rr := cleanup_worker_buckets now pools rest r.2
    if !r.1.isEmpty || (alookup w pools).isSome then ((w, r.1) :: rr.1, rr.2)
    else (rr.1, rr.2)

/-- `Plumber::cleanup_worker_actors` (plumber.rs lines 536-549). -/
def cleanup_worker_actors (now : Nat) (buckets : List (WorkerId × List (ActorKey × Actor)))
    (keys : List CleanupKey) (pools : List (WorkerId × Nat)) :
    List (WorkerId × List (ActorKey × Actor)) × List CleanupKey :=
  if MAX_CLEANUP_KEYS_SIZE ≤ keys.length then (buckets, keys)
  else cleanup_worker_buckets now pools buckets keys

/-- The body of the cleanup pass in `Plumber::cleanup` (plumber.rs lines
512-525): collect expired idle actors from the host map then the worker
maps, and install the batch-cleanup future when any keys were collected. -/
def runCleanupPass (env : Env) (st : Plumber) : Plumber :=
  let r1 := cleanup_actors env.now st.host_actors []
  let r2 := cleanup_worker_actors env.now st.worker_actors r1.2 st.worker_pools
  let st' := { st with host_actors := r1.1, worker_actors := r2.1 }
  if r2.2.isEmpty then st' else { st' with cleanup_future := some r2.2 }

/-- `Plumber::cleanup` (plumber.rs lines 506-526): clear the previous
cleanup future if it completed, then run a pass only when no future is
outstanding. -/
def cleanup (env : Env) (st : Plumber) : Plumber :=
  let st1 :=
    if st.cleanup_future.isSome && env.cleanup_ready then { st with cleanup_future := none }
    else st
  if st1.cleanup_future.isNone then runCleanupPass env st1 else st1

/-- One step of the peer split loop in `Plumber::poll_actors` (plumber.rs
lines 444-454): peers whose scope resolution fails are remote, the others
are local with their resolved scope. -/
def splitStep (env : Env) (acc : List PeerId × List PeerScope) (pid : PeerId) :
    List PeerId × List PeerScope :=
  match env.scope pid with
  | Except.error _ => (acc.1 ++ [pid], acc.2)
  | Except.ok s => (acc.1, acc.2 ++ [s])

/-- The peer split loop of `Plumber::poll_actors`. -/
def splitPeers (env : Env) (peers : List PeerId) : List PeerId × List PeerScope :=
  peers.foldl (splitStep env) ([], [])

/-- The conditional effect construction of `Plumber::poll_actors`
(plumber.rs lines 456-468): an effect is pushed only when its peer list is
non-empty. -/
def actorStepEffects (env : Env) (r : StepResult) :
    Option RemoteRoutingEffects × Option LocalRoutingEffects :=
  let s := splitPeers env r.next_peers
  ((if s.1.isEmpty then none else some { particle := r.particle, next_peers := s.1 }),
   (if s.2.isEmpty then none else some { particle := r.particle, next_peers := s.2 }))

/-- Output of `Plumber::poll_actors` over one actor map: the updated map,
the routing effects gathered in iteration order, and the number of VM
instances returned to the pool. -/
structure ActorsPollOut where
  actors : List (ActorKey × Actor)
  remote : List RemoteRoutingEffects
  locals : List LocalRoutingEffects
  returned : Nat

/-- `Plumber::poll_actors` (plumber.rs lines 425-504): each actor whose
in-flight execution completed (per the `Env.completed` oracle) has its
`next_peers` split into remote and local routing effects and its VM
returned to the pool when it survived. -/
def poll_actors (env : Env) (ps : PeerScope) : List (ActorKey × Actor) → ActorsPollOut
  | [] => { actors := [], remote := [], locals := [], returned := 0 }
  | (k, a) :: rest =>
    if a.executing then
      match env.completed ps k with
      | some r =>
        let eff := actorStepEffects env r
        let o := poll_actors env ps rest
        { actors := (k, { a with executing := false }) :: o.actors
          remote := eff.1.toList ++ o.remote
          locals := eff.2.toList ++ o.locals
          returned := (if r.vm_returned then 1 else 0) + o.returned }
      | none =>
        let o := poll_actors env ps rest
        { o with actors := (k, a) :: o.actors }
    else
      let o := poll_actors env ps rest
      { o with actors := (k, a) :: o.actors }

/-- Output of the worker half of the gather phase. -/
structure WorkersPollOut where
  buckets : List (WorkerId × List (ActorKey × Actor))
  pools : List (WorkerId × Nat)
  remote : List RemoteRoutingEffects
  locals : List LocalRoutingEffects

/-- `Plumber::poll_workers_actors` (plumber.rs lines 400-422): only workers
with a registered VM pool are polled. -/
def poll_workers_gather (env : Env) : List (WorkerId × Nat) →
    List (WorkerId × List (ActorKey × Actor)) → WorkersPollOut
  | pools, [] => { buckets := [], pools := pools, remote := [], locals := [] }
  | pools, (w, actors) :: rest =>
    match alookup w pools with
    | none =>
      let o := poll_workers_gather env pools rest
      { o with buckets := (w, actors) :: o.buckets }
    | some _ =>
      let ra := poll_actors env (PeerScope.workerId w) actors
      let pools' := aupdate w (fun f => f + ra.returned) pools
      let o := poll_workers_gather env pools' rest
      { buckets := (w, ra.actors) :: o.buckets
        pools := o.pools
        remote := ra.remote ++ o.remote
        locals := ra.locals ++ o.locals }

/-- Output of the gather phase of `Plumber::poll`. -/
structure TickOut where
  st : Plumber
  remote : List RemoteRoutingEffects
  locals : List LocalRoutingEffects

/-- The gather phase of `Plumber::poll` (plumber.rs lines 337-341): host
actors then worker actors, accumulating effects in order. -/
def tickGather (env : Env) (st : Plumber) : TickOut :=
  let h := poll_actors env PeerScope.host st.host_actors
  let st1 := { st with host_actors := h.actors, host_free_vms := st.host_free_vms + h.returned }
  let wkr := poll_workers_gather env st1.worker_pools st1.worker_actors
  { st := { st1 with worker_actors := wkr.buckets, worker_pools := wkr.pools }
    remote := h.remote ++ wkr.remote
    locals := h.locals ++ wkr.locals }

/-- `VmPool::poll` advancing outstanding creations, per pool (plumber.rs
lines 373-378): completed creations land in the free list via the
`Env.pool_refill` oracle. -/
def poll_pools (env : Env) (st : Plumber) : Plumber :=
  { st with
    host_free_vms := st.host_free_vms + env.pool_refill PeerScope.host
    worker_pools := st.worker_pools.map
      (fun wp => (wp.1, wp.2 + env.pool_refill (PeerScope.workerId wp.1))) }

/-- The per-map loop of `Plumber::poll_next_host_messages` /
`poll_next_worker_messages` (plumber.rs lines 569-602): while a free VM
exists, an idle actor with a non-empty mailbox starts executing its head
particle and keeps the VM; the loop breaks when the pool is empty. -/
def poll_next_actors : Nat → List (ActorKey × Actor) → List (ActorKey × Actor) × Nat
  | free, [] => ([], free)
  | free, (k, a) :: rest =>
    if free = 0 then ((k, a) :: rest, 0)
    else
      match a.executing, a.mailbox with
      | false, _ :: ms =>
        let r := poll_next_actors (free - 1) rest
        ((k, { a with executing := true, mailbox := ms }) :: r.1, r.2)
      | _, _ =>
        let r := poll_next_actors free rest
        ((k, a) :: r.1, r.2)

/-- `Plumber::poll_next_host_messages` (plumber.rs lines 569-582). -/
def poll_next_host_messages (st : Plumber) : Plumber :=
  let r := poll_next_actors st.host_free_vms st.host_actors
  { st with host_actors := r.1, host_free_vms := r.2 }

/-- Worker loop of `Plumber::poll_next_worker_messages` (plumber.rs lines
584-602): only workers with a registered pool make progress. -/
def poll_next_workers : List (WorkerId × Nat) → List (WorkerId × List (ActorKey × Actor)) →
    List (WorkerId × List (ActorKey × Actor)) × List (WorkerId × Nat)
  | pools, [] => ([], pools)
  | pools, (w, actors) :: rest =>
    match alookup w pools with
    | none =>
      let r := poll_next_workers pools rest
      ((w, actors) :: r.1, r.2)
    | some free =>
      let ra := poll_next_actors free actors
      let pools' := aupdate w (fun _ => ra.2) pools
      let r := poll_next_workers pools' rest
      ((w, ra.1) :: r.1, r.2)

/-- `Plumber::poll_next_worker_messages` (plumber.rs lines 584-602). -/
def poll_next_worker_messages (st : Plumber) : Plumber :=
  let r := poll_next_workers st.worker_pools st.worker_actors
  { st with worker_actors := r.1, worker_pools := r.2 }

/-- The local re-ingest loop of `Plumber::poll` (plumber.rs lines 359-365):
each local routing effect is re-ingested per resolved scope, with no
function override. -/
def reingestLocals (env : Env) (les : List LocalRoutingEffects) (st : Plumber) : Plumber :=
  les.foldl
    (fun acc eff => eff.next_peers.foldl (fun acc2 sc => ingest env eff.particle none sc acc2) acc)
    st

/-- The `Pending` branch of `Plumber::poll` before the final event append:
gather effects, run the cleanup pass, start next executions, then re-ingest
the local effects of this tick. -/
def tickPendingState (env : Env) (st1 : Plumber) : Plumber :=
  let t := tickGather env st1
  reingestLocals env t.locals (poll_next_worker_messages (poll_next_host_messages (cleanup env t.st)))

/-- `Plumber::poll` (plumber.rs lines 325-371): register the waker, advance
VM pools, deliver the front queued event if any; otherwise run one full
tick, append this tick's remote effects to the events queue wrapped as `Ok`,
and return `Pending` (`none`). -/
def poll (env : Env) (st : Plumber) : Plumber × Option Event :=
  let st1 := poll_pools env { st with waker := true }
  match st1.events with
  | e :: rest => ({ st1 with events := rest }, some e)
  | [] =>
    let stp := tickPendingState env st1
    ({ stp with events := stp.events ++ (tickGather env st1).remote.map Except.ok }, none)

/-- The worker-liveness gate of `Plumber::ingest` as a positive condition:
the particle passes when the worker is active or the initiator is a
management peer or the host (host scope always passes). -/
def gate_open (env : Env) (p : Particle) (ps : PeerScope) : Bool :=
  match ps with
  | PeerScope.host => true
  | PeerScope.workerId w =>
    env.is_worker_active w || env.is_management p.init_peer_id || env.is_host p.init_peer_id

/-- The actor map addressed by a peer scope. -/
def scopeActorMap (ps : PeerScope) (st : Plumber) : List (ActorKey × Actor) :=
  match ps with
  | PeerScope.host => st.host_actors
  | PeerScope.workerId w => (alookup w st.worker_actors).getD []

/-- Boolean test for a failed `Except`. -/
def exceptIsOk {ε α : Type} : Except ε α → Bool
  | Except.ok _ => true
  | Except.error _ => false

/-- Remote-classification test on a peer: scope resolution failed. -/
def scopeIsErr (env : Env) (pid : PeerId) : Bool :=
  match env.scope pid with
  | Except.error _ => true
  | Except.ok _ => false

/-- Local-classification on a peer: the resolved scope, if any. -/
def okScope (env : Env) (pid : PeerId) : Option PeerScope :=
  match env.scope pid with
  | Except.error _ => none
  | Except.ok s => some s

/-- The removal rule of the cleanup pass, stated the way the specification
words it: walking the map in order, an actor is removed exactly when its
deadline has passed, it is not executing, and fewer than
`MAX_CLEANUP_KEYS_SIZE` keys have been collected so far; each removed actor
contributes exactly its cleanup key. -/
def cleanupRemovalSpec (now : Nat) : List (ActorKey × Actor) → Nat →
    List (ActorKey × Actor) × List CleanupKey
  | [], _ => ([], [])
  | (k, a) :: rest, cnt =>
    if a.is_expired now ∧ ¬a.is_executing ∧ cnt < MAX_CLEANUP_KEYS_SIZE then
      let r := cleanupRemovalSpec now rest (cnt + 1)
      (r.1, a.cleanup_key :: r.2)
    else
      let r := cleanupRemovalSpec now rest cnt
      ((k, a) :: r.1, r.2)

section Lemmas

lemma alookup_append {α β : Type} [DecidableEq α] (k : α) (l1 l2 : List (α × β)) :
    alookup k (l1 ++ l2) =
      match alookup k l1 with
      | some v => some v
      | none => alookup k l2 := by
  induction l1 with
  | nil => simp [alookup]
  | cons kv rest ih =>
    obtain ⟨k', v⟩ := kv
    by_cases h : k' = k
    · simp [alookup, h]
    · simp [alookup, h, ih]

lemma alookup_aupdate_self {α β : Type} [DecidableEq α] (k : α) (f : β → β)
    (l : List (α × β)) :
    alookup k (aupdate k f l) = (alookup k l).map f := by
  induction l with
  | nil => simp [alookup, aupdate]
  | cons kv rest ih =>
    obtain ⟨k', v⟩ := kv
    by_cases h : k' = k
    · simp [alookup, aupdate, h]
    · simp [alookup, aupdate, h, ih]

lemma alookup_aEnsure_self {α β : Type} [DecidableEq α] (k : α) (v0 : β)
    (l : List (α × β)) :
    alookup k (aEnsure k v0 l) = some ((alookup k l).getD v0) := by
  unfold aEnsure
  cases h : alookup k l with
  | some v => simp [h]
  | none => simp [alookup_append, h, alookup]

lemma wake_fields (st : Plumber) :
    (wake st).events = st.events ∧ (wake st).host_actors = st.host_actors ∧
    (wake st).worker_actors = st.worker_actors ∧ (wake st).waker = st.waker ∧
    (wake st).wakeups = st.wakeups + (if st.waker then 1 else 0) := by
  unfold wake
  by_cases h : st.waker <;> simp [h]

lemma ingest_of_expired (env : Env) (p : Particle) (fn : Option Nat) (ps : PeerScope)
    (st : Plumber) (h : deadline_from p ≤ env.now) :
    ingest env p fn ps st =
      { st with events := st.events ++ [Except.error (AquamarineApiError.particleExpired p.id)] } := by
  have hb : is_expired_at (deadline_from p) env.now = true := by
    simp [is_expired_at, h]
  unfold ingest
  rw [hb]

lemma ingest_of_bad_signature (env : Env) (p : Particle) (fn : Option Nat) (ps : PeerScope)
    (st : Plumber) (e : String) (hexp : ¬ deadline_from p ≤ env.now)
    (hver : env.verify p = Except.error e) :
    ingest env p fn ps st =
      { st with events :=
          st.events ++ [Except.error (AquamarineApiError.signatureVerificationFailed p.id e)] } := by
  have hb : is_expired_at (deadline_from p) env.now = false := by
    simp [is_expired_at, hexp]
  unfold ingest
  rw [hb, hver]

lemma ingest_of_gate_closed (env : Env) (p : Particle) (fn : Option Nat) (w : WorkerId)
    (st : Plumber) (hexp : ¬ deadline_from p ≤ env.now)
    (hver : env.verify p = Except.ok ())
    (ha : env.is_worker_active w = false)
    (hm : env.is_management p.init_peer_id = false)
    (hh : env.is_host p.init_peer_id = false) :
    ingest env p fn (PeerScope.workerId w) st = st := by
  have hb : is_expired_at (deadline_from p) env.now = false := by
    simp [is_expired_at, hexp]
  unfold ingest
  simp only [hb, hver, ha, hm, hh, Bool.not_false, Bool.and_self, Bool.not_true,
    Bool.false_and, Bool.and_false, Bool.true_and, Bool.and_true]

lemma ingest_of_gate_open (env : Env) (p : Particle) (fn : Option Nat) (ps : PeerScope)
    (st : Plumber) (hexp : ¬ deadline_from p ≤ env.now)
    (hver : env.verify p = Except.ok ())
    (hgate : gate_open env p ps = true) :
    ingest env p fn ps st =
      match ps with
      | PeerScope.host => ingest_host env p fn st
      | PeerScope.workerId w => ingest_worker env p fn w st := by
  have hb : is_expired_at (deadline_from p) env.now = false := by
    simp [is_expired_at, hexp]
  unfold ingest
  cases ps with
  | host => simp only [hb, hver]
  | workerId w =>
    have hc : (!env.is_worker_active w && !env.is_management p.init_peer_id
        && !env.is_host p.init_peer_id) = false := by
      simp only [gate_open] at hgate
      cases hA : env.is_worker_active w <;>
        cases hM : env.is_management p.init_peer_id <;>
        cases hH : env.is_host p.init_peer_id <;>
        simp_all
    simp only [hb, hver, hc]

lemma applyFunction_mailbox (fn : Option Nat) (a : Actor) :
    (applyFunction fn a).mailbox = a.mailbox := by
  cases fn <;> simp [applyFunction, Actor.set_function]

lemma applyFunction_executing (fn : Option Nat) (a : Actor) :
    (applyFunction fn a).executing = a.executing := by
  cases fn <;> simp [applyFunction, Actor.set_function]

lemma aupdate_append_of_none {α β : Type} [DecidableEq α] (k : α) (f : β → β)
    (l1 l2 : List (α × β)) (h : alookup k l1 = none) :
    aupdate k f (l1 ++ l2) = l1 ++ aupdate k f l2 := by
  induction l1 with
  | nil => simp
  | cons kv rest ih =>
    obtain ⟨k', v⟩ := kv
    by_cases hk : k' = k
    · simp [alookup, hk] at h
    · simp only [alookup, hk, if_neg hk, ite_false] at h
      simp [aupdate, hk, ih h]

lemma create_actor_existing (env : Env) (ps : PeerScope) (cp : PeerId) (deal : Option String)
    (actors : List (ActorKey × Actor)) (key : ActorKey) (p : Particle) (a0 : Actor)
    (h : alookup key actors = some a0) :
    create_actor env ps cp deal actors key p = Except.ok actors := by
  unfold create_actor
  rw [h]

lemma create_actor_fresh (env : Env) (ps : PeerScope) (cp : PeerId) (deal : Option String)
    (actors : List (ActorKey × Actor)) (key : ActorKey) (p : Particle) (kp : Nat) (tok : String)
    (h : alookup key actors = none) (hkp : env.get_keypair ps = some kp)
    (htok : env.sign p.signature = Except.ok tok) :
    create_actor env ps cp deal actors key p =
      Except.ok (actors ++ [(key, newActor p cp deal tok)]) := by
  unfold create_actor
  rw [h, hkp, htok]

/-- What one accepted host-scope ingest does to the host actor map. -/
lemma ingest_host_map (env : Env) (p : Particle) (fn : Option Nat) (st : Plumber)
    (kp : Nat) (tok : String)
    (hkp : env.get_keypair PeerScope.host = some kp)
    (htok : env.sign p.signature = Except.ok tok) :
    (ingest_host env p fn st).host_actors =
      match alookup p.signature st.host_actors with
      | some _ =>
        aupdate p.signature (fun a => applyFunction fn (Actor.ingest a p)) st.host_actors
      | none =>
        st.host_actors ++
          [(p.signature, applyFunction fn (Actor.ingest (newActor p env.host_peer_id none tok) p))] := by
  unfold ingest_host
  cases hA : alookup p.signature st.host_actors with
  | some a0 =>
    rw [create_actor_existing env PeerScope.host env.host_peer_id none st.host_actors
      p.signature p a0 hA]
    simp [(wake_fields _).2.1]
  | none =>
    rw [create_actor_fresh env PeerScope.host env.host_peer_id none st.host_actors
      p.signature p kp tok hA hkp htok]
    simp [(wake_fields _).2.1, aupdate_append_of_none _ _ _ _ hA, aupdate]

/-- What one accepted worker-scope ingest does to that worker's bucket. -/
lemma ingest_worker_map (env : Env) (p : Particle) (fn : Option Nat) (w : WorkerId)
    (st : Plumber) (deal : String) (rh kp : Nat) (tok : String)
    (hdeal : env.get_deal_id w = Except.ok deal)
    (hrh : env.get_runtime_handle w = some rh)
    (hkp : env.get_keypair (PeerScope.workerId w) = some kp)
    (htok : env.sign p.signature = Except.ok tok) :
    (alookup w (ingest_worker env p fn w st).worker_actors).getD [] =
      (let b0 := (alookup w st.worker_actors).getD []
       match alookup p.signature b0 with
       | some _ => aupdate p.signature (fun a => applyFunction fn (Actor.ingest a p)) b0
       | none =>
         b0 ++ [(p.signature,
           applyFunction fn (Actor.ingest (newActor p (env.worker_peer w) (some deal) tok) p))]) := by
  unfold ingest_worker
  have hb : alookup w (aEnsure w ([] : List (ActorKey × Actor)) st.worker_actors) =
      some ((alookup w st.worker_actors).getD []) := alookup_aEnsure_self w [] st.worker_actors
  rw [hdeal, hrh]
  simp only [hb, Option.getD_some]
  cases hA : alookup p.signature ((alookup w st.worker_actors).getD []) with
  | some a0 =>
    rw [create_actor_existing env (PeerScope.workerId w) (env.worker_peer w) (some deal)
      ((alookup w st.worker_actors).getD []) p.signature p a0 hA]
    simp [(wake_fields _).2.2.1, alookup_aupdate_self, hb]
  | none =>
    rw [create_actor_fresh env (PeerScope.workerId w) (env.worker_peer w) (some deal)
      ((alookup w st.worker_actors).getD []) p.signature p kp tok hA hkp htok]
    simp [(wake_fields _).2.2.1, alookup_aupdate_self, hb,
      aupdate_append_of_none _ _ _ _ hA, aupdate]

lemma wake_wakeups (st : Plumber) :
    (wake st).wakeups = st.wakeups + (if st.waker then 1 else 0) :=
  (wake_fields st).2.2.2.2

end Lemmas

/-- C1: ingesting a particle whose deadline `timestamp + ttl` has passed at
the current time enqueues a `ParticleExpired` error carrying the particle id
at the back of the events queue and returns with every other field of the
plumber - in particular the host and worker actor maps - unchanged. -/
theorem ingest_expired_enqueues_error (env : Env) (p : Particle) (fn : Option Nat)
    (ps : PeerScope) (st : Plumber) (h : deadline_from p ≤ env.now) :
    ingest env p fn ps st =
      { st with events := st.events ++ [Except.error (AquamarineApiError.particleExpired p.id)] } :=
  ingest_of_expired env p fn ps st h

/-- C2: ingesting a non-expired particle whose signature verification fails
enqueues a `SignatureVerificationFailed` error carrying the particle id and
the verification error at the back of the events queue and returns with
every other field of the plumber unchanged. -/
theorem ingest_bad_signature_enqueues_error (env : Env) (p : Particle) (fn : Option Nat)
    (ps : PeerScope) (st : Plumber) (e : String) (hexp : ¬ deadline_from p ≤ env.now)
    (hver : env.verify p = Except.error e) :
    ingest env p fn ps st =
      { st with events :=
          st.events ++ [Except.error (AquamarineApiError.signatureVerificationFailed p.id e)] } :=
  ingest_of_bad_signature env p fn ps st e hexp hver

section Witnesses

/-- A concrete particle used by witnesses: deadline 3. -/
def pW : Particle :=
  { id := "w", init_peer_id := 1, timestamp := 1, ttl := 2, script := "", pdata := [],
    signature := [7, 7] }

/-- A concrete empty plumber state used by witnesses. -/
def stW : Plumber :=
  { events := [], host_actors := [], worker_actors := [], host_free_vms := 1,
    worker_pools := [], waker := false, wakeups := 0, cleanup_future := none }

/-- A concrete environment where everything succeeds, used by witnesses. -/
def envW : Env :=
  { now := 0
    verify := fun _ => Except.ok ()
    is_worker_active := fun _ => true
    is_management := fun _ => false
    is_host := fun _ => false
    host_peer_id := 0
    worker_peer := fun w => w + 100
    scope := fun pid => if pid = 0 then Except.ok PeerScope.host else Except.error ()
    get_keypair := fun _ => some 1
    get_deal_id := fun _ => Except.ok ("deal")
    get_runtime_handle := fun _ => some 1
    sign := fun _ => Except.ok ("token")
    completed := fun _ _ => none
    cleanup_ready := false
    pool_refill := fun _ => 0 }

/-- Witness for C1: with the clock at 5, the deadline 3 of `pW` has passed
and ingesting it enqueues exactly the `ParticleExpired` event. -/
theorem ingest_expired_enqueues_error_witness :
    deadline_from pW ≤ ({ envW with now := 5 } : Env).now ∧
    ingest { envW with now := 5 } pW none PeerScope.host stW =
      { stW with events := [Except.error (AquamarineApiError.particleExpired ("w"))] } := by
  refine ⟨by decide, ?_⟩
  exact ingest_expired_enqueues_error { envW with now := 5 } pW none PeerScope.host stW (by decide)

/-- Witness for C2: an unexpired particle in an environment whose verifier
rejects every signature yields the `SignatureVerificationFailed` event. -/
theorem ingest_bad_signature_enqueues_error_witness :
    ¬ deadline_from pW ≤ envW.now ∧
    ingest { envW with verify := fun _ => Except.error ("bad") } pW none PeerScope.host stW =
      { stW with events :=
          [Except.error (AquamarineApiError.signatureVerificationFailed ("w") ("bad"))] } := by
  refine ⟨by decide, ?_⟩
  exact ingest_bad_signature_enqueues_error { envW with verify := fun _ => Except.error ("bad") }
    pW none PeerScope.host stW ("bad") (by decide) rfl

end Witnesses

/-- Environment for the C3 counterexample: the worker is active and the
particle is valid and unexpired, but the worker registry has no deal id. -/
def envNoDeal : Env := { envW with get_deal_id := fun _ => Except.error ("no deal") }

/-- Counterexample to C3 as stated: with worker 0 active (so the liveness
gate passes), a valid unexpired particle ingested under `Worker 0` does not
reach any actor, because the deal-id lookup fails and the particle is
dropped with only a log - the worker bucket exists but holds no actor. -/
theorem ingest_worker_reaches_actor_counterexample :
    (¬ deadline_from pW ≤ envNoDeal.now) ∧
    envNoDeal.verify pW = Except.ok () ∧
    envNoDeal.is_worker_active 0 = true ∧
    (ingest envNoDeal pW none (PeerScope.workerId 0) stW).events = stW.events ∧
    alookup pW.signature
      ((alookup 0 (ingest envNoDeal pW none (PeerScope.workerId 0) stW).worker_actors).getD [])
      = none := by
  refine ⟨by decide, rfl, rfl, rfl, by decide⟩

/-- C3 amended: for a non-expired, validly signed particle ingested under
`Worker w`: if the worker is inactive and the initiator is neither a
management peer nor the host, ingest returns the state unchanged (no event,
no actor); otherwise processing continues and - provided actor creation
succeeds, i.e. the worker has a deal id and a runtime handle, a keypair for
the scope exists and token signing succeeds - the particle reaches an actor
in the worker's actor map (it is appended to that actor's mailbox). -/
theorem ingest_worker_gate (env : Env) (p : Particle) (fn : Option Nat) (w : WorkerId)
    (st : Plumber) (hexp : ¬ deadline_from p ≤ env.now)
    (hver : env.verify p = Except.ok ()) :
    (env.is_worker_active w = false → env.is_management p.init_peer_id = false →
      env.is_host p.init_peer_id = false →
      ingest env p fn (PeerScope.workerId w) st = st) ∧
    (∀ deal rh kp tok, gate_open env p (PeerScope.workerId w) = true →
      env.get_deal_id w = Except.ok deal →
      env.get_runtime_handle w = some rh →
      env.get_keypair (PeerScope.workerId w) = some kp →
      env.sign p.signature = Except.ok tok →
      ∃ a pre, alookup p.signature
          ((alookup w (ingest env p fn (PeerScope.workerId w) st).worker_actors).getD [])
          = some a ∧ a.mailbox = pre ++ [p]) := by
  constructor
  · intro ha hm hh
    exact ingest_of_gate_closed env p fn w st hexp hver ha hm hh
  · intro deal rh kp tok hgate hdeal hrh hkp htok
    rw [ingest_of_gate_open env p fn (PeerScope.workerId w) st hexp hver hgate]
    rw [ingest_worker_map env p fn w st deal rh kp tok hdeal hrh hkp htok]
    cases hA : alookup p.signature ((alookup w st.worker_actors).getD []) with
    | some a0 =>
      refine ⟨applyFunction fn (Actor.ingest a0 p), a0.mailbox, ?_, ?_⟩
      · simp [hA, alookup_aupdate_self]
      · rw [applyFunction_mailbox]
        rfl
    | none =>
      refine ⟨applyFunction fn (Actor.ingest (newActor p (env.worker_peer w) (some deal) tok) p),
        [], ?_, ?_⟩
      · simp only [hA, alookup_append, hA, alookup]
        simp
      · rw [applyFunction_mailbox]
        rfl

/-- Witness for the amended C3: in the all-succeeding environment with the
clock at 0, ingesting `pW` under `Worker 0` lands it in an actor of worker
0's bucket. -/
theorem ingest_worker_gate_witness :
    ∃ a pre, alookup pW.signature
        ((alookup 0 (ingest envW pW none (PeerScope.workerId 0) stW).worker_actors).getD [])
        = some a ∧ a.mailbox = pre ++ [pW] :=
  (ingest_worker_gate envW pW none 0 stW (by decide) rfl).2 ("deal") 1 1 ("token")
    rfl rfl rfl rfl rfl

/-- State for the C4 counterexample: a waker is registered. -/
def stWake : Plumber := { stW with waker := true }

/-- Counterexample to C4 as stated: with a waker registered, ingesting an
expired particle enqueues the `ParticleExpired` event but performs no
`wake_by_ref` call - the wakeup count is unchanged, so not every call to
ingest wakes the waker. -/
theorem ingest_always_wakes_counterexample :
    stWake.waker = true ∧
    (ingest { envW with now := 5 } pW none PeerScope.host stWake).wakeups = stWake.wakeups ∧
    (ingest { envW with now := 5 } pW none PeerScope.host stWake).events =
      stWake.events ++ [Except.error (AquamarineApiError.particleExpired pW.id)] :=
  ⟨rfl, rfl, rfl⟩

/-- C4 amended: `ingest` wakes the registered waker (one `wake_by_ref` call
when a waker is registered) exactly on the paths that pass the expiry,
signature and worker-liveness checks - whether or not actor creation then
succeeds; the early-return paths (expired particle, failed signature
verification, inactive worker with a non-management non-host initiator)
return without waking. -/
theorem ingest_wake_behavior (env : Env) (p : Particle) (fn : Option Nat) (ps : PeerScope)
    (st : Plumber) :
    (deadline_from p ≤ env.now → (ingest env p fn ps st).wakeups = st.wakeups) ∧
    (∀ e, ¬ deadline_from p ≤ env.now → env.verify p = Except.error e →
      (ingest env p fn ps st).wakeups = st.wakeups) ∧
    (∀ w, ps = PeerScope.workerId w → ¬ deadline_from p ≤ env.now →
      env.verify p = Except.ok () → env.is_worker_active w = false →
      env.is_management p.init_peer_id = false → env.is_host p.init_peer_id = false →
      (ingest env p fn ps st).wakeups = st.wakeups) ∧
    (¬ deadline_from p ≤ env.now → env.verify p = Except.ok () →
      gate_open env p ps = true →
      (ingest env p fn ps st).wakeups = st.wakeups + (if st.waker then 1 else 0)) := by
  refine ⟨?_, ?_, ?_, ?_⟩
  · intro h
    rw [ingest_of_expired env p fn ps st h]
  · intro e hexp hver
    rw [ingest_of_bad_signature env p fn ps st e hexp hver]
  · intro w hps hexp hver ha hm hh
    subst hps
    rw [ingest_of_gate_closed env p fn w st hexp hver ha hm hh]
  · intro hexp hver hgate
    rw [ingest_of_gate_open env p fn ps st hexp hver hgate]
    cases ps with
    | host =>
      unfold ingest_host
      cases hC : create_actor env PeerScope.host env.host_peer_id none st.host_actors
          p.signature p <;> simp [hC, wake_wakeups]
    | workerId w =>
      unfold ingest_worker
      cases hd : env.get_deal_id w with
      | error e => simp [hd, wake_wakeups]
      | ok deal =>
        cases hr : env.get_runtime_handle w with
        | none => simp [hd, hr, wake_wakeups]
        | some rh =>
          cases hC : create_actor env (PeerScope.workerId w) (env.worker_peer w) (some deal)
              ((alookup w (aEnsure w [] st.worker_actors)).getD []) p.signature p <;>
            simp [hd, hr, hC, wake_wakeups]

/-- Witness for the amended C4: on the accepted host path with a registered
waker, the wakeup count increases by one. -/
theorem ingest_wake_behavior_witness :
    (ingest envW pW none PeerScope.host stWake).wakeups = stWake.wakeups + 1 := by
  have h := (ingest_wake_behavior envW pW none PeerScope.host stWake).2.2.2
    (by decide) rfl rfl
  simpa using h

lemma applyFunction_none (a : Actor) : applyFunction none a = a := rfl

/-- C9: ingesting the same particle (same signature bytes) twice under the
same peer scope into an initially empty actor map yields a single actor -
the second ingest finds the existing actor under the signature key instead
of creating a new one, so the map is the singleton for that key - whose
mailbox holds both entries in order; popping the mailbox processes the
first entry, and after that execution completes, popping again processes
the second, leaving the mailbox empty. -/
theorem ingest_twice_single_actor (env : Env) (p : Particle) (ps : PeerScope) (st : Plumber)
    (kp : Nat) (tok : String)
    (hexp : ¬ deadline_from p ≤ env.now)
    (hver : env.verify p = Except.ok ())
    (hgate : gate_open env p ps = true)
    (hkp : env.get_keypair ps = some kp)
    (htok : env.sign p.signature = Except.ok tok)
    (hdeal : ∀ w, ps = PeerScope.workerId w → ∃ d, env.get_deal_id w = Except.ok d)
    (hrh : ∀ w, ps = PeerScope.workerId w → ∃ r, env.get_runtime_handle w = some r)
    (hempty : scopeActorMap ps st = []) :
    ∃ a, scopeActorMap ps (ingest env p none ps (ingest env p none ps st)) = [(p.signature, a)] ∧
      a.mailbox = [p, p] ∧
      ∃ a1 a2, a.popNext = some (p, a1) ∧ a1.complete.popNext = some (p, a2) ∧
        a2.mailbox = [] := by
  cases ps with
  | host =>
    simp only [scopeActorMap] at hempty ⊢
    rw [ingest_of_gate_open env p none PeerScope.host
      (ingest env p none PeerScope.host st) hexp hver hgate,
      ingest_of_gate_open env p none PeerScope.host st hexp hver hgate]
    have h1 : (ingest_host env p none st).host_actors =
        [(p.signature, Actor.ingest (newActor p env.host_peer_id none tok) p)] := by
      rw [ingest_host_map env p none st kp tok hkp htok, hempty]
      simp [alookup, applyFunction_none]
    have h2 : (ingest_host env p none (ingest_host env p none st)).host_actors =
        [(p.signature,
          Actor.ingest (Actor.ingest (newActor p env.host_peer_id none tok) p) p)] := by
      rw [ingest_host_map env p none (ingest_host env p none st) kp tok hkp htok, h1]
      simp [alookup, aupdate, applyFunction_none]
    refine ⟨Actor.ingest (Actor.ingest (newActor p env.host_peer_id none tok) p) p,
      h2, by simp [Actor.ingest, newActor], ?_⟩
    refine ⟨{ newActor p env.host_peer_id none tok with executing := true, mailbox := [p] },
      { newActor p env.host_peer_id none tok with executing := true, mailbox := [] },
      ?_, ?_, ?_⟩ <;>
      simp [Actor.popNext, Actor.complete, Actor.ingest, newActor]
  | workerId w =>
    obtain ⟨d, hd⟩ := hdeal w rfl
    obtain ⟨r, hr⟩ := hrh w rfl
    simp only [scopeActorMap] at hempty ⊢
    rw [ingest_of_gate_open env p none (PeerScope.workerId w)
      (ingest env p none (PeerScope.workerId w) st) hexp hver hgate,
      ingest_of_gate_open env p none (PeerScope.workerId w) st hexp hver hgate]
    have h1 : (alookup w (ingest_worker env p none w st).worker_actors).getD [] =
        [(p.signature, Actor.ingest (newActor p (env.worker_peer w) (some d) tok) p)] := by
      rw [ingest_worker_map env p none w st d r kp tok hd hr hkp htok]
      simp only [hempty]
      simp [alookup, applyFunction_none]
    have h2 : (alookup w (ingest_worker env p none w
          (ingest_worker env p none w st)).worker_actors).getD [] =
        [(p.signature,
          Actor.ingest (Actor.ingest (newActor p (env.worker_peer w) (some d) tok) p) p)] := by
      rw [ingest_worker_map env p none w (ingest_worker env p none w st) d r kp tok hd hr hkp htok]
      simp only [h1]
      simp [alookup, aupdate, applyFunction_none]
    refine ⟨Actor.ingest (Actor.ingest (newActor p (env.worker_peer w) (some d) tok) p) p,
      h2, by simp [Actor.ingest, newActor], ?_⟩
    refine ⟨{ newActor p (env.worker_peer w) (some d) tok with executing := true, mailbox := [p] },
      { newActor p (env.worker_peer w) (some d) tok with executing := true, mailbox := [] },
      ?_, ?_, ?_⟩ <;>
      simp [Actor.popNext, Actor.complete, Actor.ingest, newActor]

/-- Witness for C9: in the all-succeeding environment, ingesting `pW` twice
under host scope from the empty state yields one actor with the two-entry
mailbox, both processable. -/
theorem ingest_twice_single_actor_witness :
    ∃ a, scopeActorMap PeerScope.host
        (ingest envW pW none PeerScope.host (ingest envW pW none PeerScope.host stW)) =
        [(pW.signature, a)] ∧
      a.mailbox = [pW, pW] ∧
      ∃ a1 a2, a.popNext = some (pW, a1) ∧ a1.complete.popNext = some (pW, a2) ∧
        a2.mailbox = [] :=
  ingest_twice_single_actor envW pW PeerScope.host stW 1 ("token") (by decide) rfl rfl rfl rfl
    (fun w hw => by cases hw) (fun w hw => by cases hw) rfl

lemma cleanup_actors_eq_spec (now : Nat) (map : List (ActorKey × Actor)) :
    ∀ keys : List CleanupKey,
      cleanup_actors now map keys =
        ((cleanupRemovalSpec now map keys.length).1,
          keys ++ (cleanupRemovalSpec now map keys.length).2) := by
  induction map with
  | nil => intro keys; simp [cleanup_actors, cleanupRemovalSpec]
  | cons kv rest ih =>
    intro keys
    obtain ⟨k, a⟩ := kv
    by_cases h1 : MAX_CLEANUP_KEYS_SIZE ≤ keys.length
    · have hcond : ¬(a.is_expired now = true ∧ a.is_executing = false ∧
          keys.length < MAX_CLEANUP_KEYS_SIZE) := by
        rintro ⟨-, -, hlt⟩
        omega
      simp [cleanup_actors, cleanupRemovalSpec, h1, hcond, ih]
    · by_cases h2 : (!a.is_expired now || a.is_executing) = true
      · have hcond : ¬(a.is_expired now = true ∧ a.is_executing = false ∧
            keys.length < MAX_CLEANUP_KEYS_SIZE) := by
          rintro ⟨he, hne, -⟩
          rw [he] at h2
          simp [hne] at h2
        simp [cleanup_actors, cleanupRemovalSpec, h1, h2, hcond, ih]
      · have he : a.is_expired now = true ∧ a.is_executing = false := by
          cases hx : a.is_expired now <;> cases hy : a.is_executing <;> simp_all
        have hcond : a.is_expired now = true ∧ a.is_executing = false ∧
            keys.length < MAX_CLEANUP_KEYS_SIZE :=
          ⟨he.1, he.2, by omega⟩
        simp [cleanup_actors, cleanupRemovalSpec, h1, h2, hcond,
          ih (keys ++ [a.cleanup_key])]

lemma cleanupRemovalSpec_len (now : Nat) (map : List (ActorKey × Actor)) :
    ∀ cnt : Nat, (cleanupRemovalSpec now map cnt).2.length ≤ MAX_CLEANUP_KEYS_SIZE - cnt := by
  induction map with
  | nil => intro cnt; simp [cleanupRemovalSpec]
  | cons kv rest ih =>
    intro cnt
    obtain ⟨k, a⟩ := kv
    by_cases hcond : a.is_expired now ∧ ¬a.is_executing ∧ cnt < MAX_CLEANUP_KEYS_SIZE
    · have h := ih (cnt + 1)
      have hlt := hcond.2.2
      simp only [cleanupRemovalSpec, if_pos hcond, List.length_cons]
      omega
    · have h := ih cnt
      simp only [cleanupRemovalSpec, if_neg hcond]
      omega

/-- C7: the cleanup pass removes an actor exactly when its deadline has
passed, it is not executing, and fewer than `MAX_CLEANUP_KEYS_SIZE = 1024`
keys have been collected so far in the pass; each removed actor contributes
exactly its cleanup key, in order, and actors beyond the cap are kept:
`cleanup_actors` coincides with the removal rule `cleanupRemovalSpec`, and a
pass started empty collects at most 1024 keys. -/
theorem cleanup_actors_correct (now : Nat) (map : List (ActorKey × Actor))
    (keys : List CleanupKey) :
    cleanup_actors now map keys =
      ((cleanupRemovalSpec now map keys.length).1,
        keys ++ (cleanupRemovalSpec now map keys.length).2) ∧
    (cleanup_actors now map []).2.length ≤ MAX_CLEANUP_KEYS_SIZE := by
  refine ⟨cleanup_actors_eq_spec now map keys, ?_⟩
  rw [cleanup_actors_eq_spec now map []]
  have := cleanupRemovalSpec_len now map 0
  simpa using this

lemma cleanup_skip (env : Env) (st : Plumber) (t : List CleanupKey)
    (ht : st.cleanup_future = some t) (hr : env.cleanup_ready = false) :
    cleanup env st = st := by
  unfold cleanup
  simp [ht, hr]

lemma cleanup_clear (env : Env) (st : Plumber) (t : List CleanupKey)
    (ht : st.cleanup_future = some t) (hr : env.cleanup_ready = true) :
    cleanup env st = runCleanupPass env { st with cleanup_future := none } := by
  unfold cleanup
  simp [ht, hr]

lemma cleanup_none_runs (env : Env) (st : Plumber) (hn : st.cleanup_future = none) :
    cleanup env st = runCleanupPass env st := by
  unfold cleanup
  simp [hn]

lemma runCleanupPass_future (env : Env) (st : Plumber) :
    (runCleanupPass env st).cleanup_future = st.cleanup_future ∨
    ∃ ks, ks ≠ [] ∧ (runCleanupPass env st).cleanup_future = some ks := by
  unfold runCleanupPass
  cases hE : (cleanup_worker_actors env.now st.worker_actors
      (cleanup_actors env.now st.host_actors []).2 st.worker_pools).2.isEmpty
  · right
    refine ⟨(cleanup_worker_actors env.now st.worker_actors
      (cleanup_actors env.now st.host_actors []).2 st.worker_pools).2, ?_, by simp [hE]⟩
    intro hnil
    rw [hnil] at hE
    simp at hE
  · left
    simp [hE]

/-- C8: there is at most one outstanding batch-cleanup task at a tick
boundary: when a cleanup future is installed and has not completed, the
pass is skipped and the state - in particular the future - is unchanged; a
completed future is cleared before the pass may install a new one; and a
pass run with no outstanding future only ever installs a future carrying a
non-empty key batch. -/
theorem cleanup_single_outstanding (env : Env) (st : Plumber) :
    (∀ t, st.cleanup_future = some t → env.cleanup_ready = false →
      cleanup env st = st) ∧
    (∀ t, st.cleanup_future = some t → env.cleanup_ready = true →
      cleanup env st = runCleanupPass env { st with cleanup_future := none }) ∧
    (st.cleanup_future = none → cleanup env st = runCleanupPass env st) ∧
    (st.cleanup_future = none → ∀ ks, (cleanup env st).cleanup_future = some ks → ks ≠ []) := by
  refine ⟨fun t ht hr => cleanup_skip env st t ht hr,
    fun t ht hr => cleanup_clear env st t ht hr,
    fun hn => cleanup_none_runs env st hn, ?_⟩
  intro hn ks hks
  rw [cleanup_none_runs env st hn] at hks
  rcases runCleanupPass_future env st with h | ⟨ks', hne, hks'⟩
  · rw [h, hn] at hks
    exact absurd hks (by simp)
  · rw [hks'] at hks
    injection hks with h2
    rw [← h2]
    exact hne

/-- Witness for C8: with an outstanding cleanup future and a not-yet-ready
oracle, `cleanup` is the identity. -/
theorem cleanup_single_outstanding_witness :
    ({ stW with cleanup_future := some [(("p"), 0, [1], (""))] } : Plumber).cleanup_future
      = some [(("p"), 0, [1], (""))] ∧
    cleanup envW { stW with cleanup_future := some [(("p"), 0, [1], (""))] } =
      { stW with cleanup_future := some [(("p"), 0, [1], (""))] } :=
  ⟨rfl, (cleanup_single_outstanding envW
    { stW with cleanup_future := some [(("p"), 0, [1], (""))] }).1
    [(("p"), 0, [1], (""))] rfl rfl⟩

lemma splitPeers_go (env : Env) (peers : List PeerId) :
    ∀ racc lacc, peers.foldl (splitStep env) (racc, lacc) =
      (racc ++ peers.filter (fun pid => scopeIsErr env pid),
       lacc ++ peers.filterMap (fun pid => okScope env pid)) := by
  induction peers with
  | nil => intro r l; simp
  | cons pid rest ih =>
    intro r l
    cases h : env.scope pid with
    | error u =>
      have hf : scopeIsErr env pid = true := by simp [scopeIsErr, h]
      have ho : okScope env pid = none := by simp [okScope, h]
      simp [splitStep, h, ih, hf, ho, List.filter_cons, List.filterMap_cons]
    | ok s =>
      have hf : scopeIsErr env pid = false := by simp [scopeIsErr, h]
      have ho : okScope env pid = some s := by simp [okScope, h]
      simp [splitStep, h, ih, hf, ho, List.filter_cons, List.filterMap_cons]

lemma splitPeers_eq (env : Env) (peers : List PeerId) :
    splitPeers env peers =
      (peers.filter (fun pid => scopeIsErr env pid),
       peers.filterMap (fun pid => okScope env pid)) := by
  simpa [splitPeers] using splitPeers_go env peers [] []

lemma okScope_eq_some (env : Env) (pid : PeerId) (s : PeerScope) :
    okScope env pid = some s ↔ env.scope pid = Except.ok s := by
  cases h : env.scope pid <;> simp [okScope, h]

lemma filter_isEmpty_false_iff {α : Type} (p : α → Bool) (l : List α) :
    (l.filter p).isEmpty = false ↔ ∃ a ∈ l, p a = true := by
  induction l with
  | nil => simp
  | cons x xs ih => cases h : p x <;> simp [List.filter_cons, h, ih]

lemma filterMap_isEmpty_false_iff {α β : Type} (f : α → Option β) (l : List α) :
    ((l.filterMap f).isEmpty = false) ↔ ∃ a ∈ l, ∃ b, f a = some b := by
  induction l with
  | nil => simp
  | cons x xs ih =>
    cases h : f x with
    | none => simp [List.filterMap_cons, h, ih]
    | some b => simp [List.filterMap_cons, h]

lemma ne_nil_of_isEmpty_false {α : Type} (l : List α) (h : l.isEmpty = false) : l ≠ [] := by
  cases l <;> simp_all

lemma actorStepEffects_remote_iff (env : Env) (r : StepResult) :
    (actorStepEffects env r).1 ≠ none ↔ ∃ pid ∈ r.next_peers, scopeIsErr env pid = true := by
  unfold actorStepEffects
  rw [splitPeers_eq]
  cases hE : (r.next_peers.filter (fun pid => scopeIsErr env pid)).isEmpty with
  | true =>
    simp only [hE]
    simp only [if_true, ne_eq, not_true_eq_false, false_iff]
    intro hex
    rw [← filter_isEmpty_false_iff] at hex
    rw [hex] at hE
    cases hE
  | false =>
    simp only [hE]
    simp only [if_false, ne_eq, reduceCtorEq, not_false_eq_true, true_iff]
    exact (filter_isEmpty_false_iff _ _).mp hE

lemma actorStepEffects_locals_iff (env : Env) (r : StepResult) :
    (actorStepEffects env r).2 ≠ none ↔
      ∃ pid ∈ r.next_peers, ∃ s, env.scope pid = Except.ok s := by
  unfold actorStepEffects
  rw [splitPeers_eq]
  cases hE : (r.next_peers.filterMap (fun pid => okScope env pid)).isEmpty with
  | true =>
    simp only [hE]
    simp only [if_true, ne_eq, not_true_eq_false, false_iff]
    intro hex
    have hex' : ∃ pid ∈ r.next_peers, ∃ s, okScope env pid = some s := by
      obtain ⟨pid, hm, s, hs⟩ := hex
      exact ⟨pid, hm, s, (okScope_eq_some env pid s).mpr hs⟩
    rw [← filterMap_isEmpty_false_iff] at hex'
    rw [hex'] at hE
    cases hE
  | false =>
    simp only [hE]
    simp only [if_false, ne_eq, reduceCtorEq, not_false_eq_true, true_iff]
    obtain ⟨pid, hm, s, hs⟩ := (filterMap_isEmpty_false_iff _ _).mp hE
    exact ⟨pid, hm, s, (okScope_eq_some env pid s).mp hs⟩

lemma actorStepEffects_remote_ne_nil (env : Env) (r : StepResult) (eff : RemoteRoutingEffects)
    (h : (actorStepEffects env r).1 = some eff) : eff.next_peers ≠ [] := by
  unfold actorStepEffects at h
  cases hE : (splitPeers env r.next_peers).1.isEmpty with
  | true => simp [hE] at h
  | false =>
    simp only [hE, if_false] at h
    injection h with h2
    rw [← h2]
    exact ne_nil_of_isEmpty_false _ hE

lemma actorStepEffects_locals_ne_nil (env : Env) (r : StepResult) (eff : LocalRoutingEffects)
    (h : (actorStepEffects env r).2 = some eff) : eff.next_peers ≠ [] := by
  unfold actorStepEffects at h
  cases hE : (splitPeers env r.next_peers).2.isEmpty with
  | true => simp [hE] at h
  | false =>
    simp only [hE, if_false] at h
    injection h with h2
    rw [← h2]
    exact ne_nil_of_isEmpty_false _ hE

lemma poll_actors_remote_ne_nil (env : Env) (ps : PeerScope)
    (actors : List (ActorKey × Actor)) :
    ∀ e ∈ (poll_actors env ps actors).remote, e.next_peers ≠ [] := by
  induction actors with
  | nil => simp [poll_actors]
  | cons kv rest ih =>
    obtain ⟨k, a⟩ := kv
    cases hx : a.executing with
    | false => simpa [poll_actors, hx] using ih
    | true =>
      cases hc : env.completed ps k with
      | none => simpa [poll_actors, hx, hc] using ih
      | some r =>
        intro e he
        simp only [poll_actors, hx, hc, if_true, List.mem_append] at he
        rcases he with he | he
        · cases ho : (actorStepEffects env r).1 with
          | none => rw [ho] at he; cases he
          | some effv =>
            rw [ho] at he
            simp at he
            rw [he]
            exact actorStepEffects_remote_ne_nil env r effv ho
        · exact ih e he

lemma poll_actors_locals_ne_nil (env : Env) (ps : PeerScope)
    (actors : List (ActorKey × Actor)) :
    ∀ e ∈ (poll_actors env ps actors).locals, e.next_peers ≠ [] := by
  induction actors with
  | nil => simp [poll_actors]
  | cons kv rest ih =>
    obtain ⟨k, a⟩ := kv
    cases hx : a.executing with
    | false => simpa [poll_actors, hx] using ih
    | true =>
      cases hc : env.completed ps k with
      | none => simpa [poll_actors, hx, hc] using ih
      | some r =>
        intro e he
        simp only [poll_actors, hx, hc, if_true, List.mem_append] at he
        rcases he with he | he
        · cases ho : (actorStepEffects env r).2 with
          | none => rw [ho] at he; cases he
          | some effv =>
            rw [ho] at he
            simp at he
            rw [he]
            exact actorStepEffects_locals_ne_nil env r effv ho
        · exact ih e he

/-- C5: on each poll, after advancing the VM pools, a non-empty events queue
has its front event removed and returned as `Ready` with nothing else done;
otherwise poll returns `Pending` and every remote routing effect produced
during the tick is appended to the events queue wrapped as `Ok` instead of
being returned - so at most one event is delivered per poll and a remote
effect of tick N is delivered no earlier than tick N+1. -/
theorem poll_delivers_one_event (env : Env) (st : Plumber) :
    (∀ e rest, st.events = e :: rest →
      poll env st = ({ poll_pools env { st with waker := true } with events := rest }, some e)) ∧
    (st.events = [] →
      (poll env st).2 = none ∧
      (poll env st).1.events =
        (tickPendingState env (poll_pools env { st with waker := true })).events ++
          (tickGather env (poll_pools env { st with waker := true })).remote.map Except.ok) := by
  obtain ⟨ev, ha, wa, hf, wp, wk, wu, cf⟩ := st
  constructor
  · intro e rest h
    simp only at h
    subst h
    rfl
  · intro h
    simp only at h
    subst h
    exact ⟨rfl, rfl⟩

/-- Witness for C5: delivering a concrete queued event. -/
theorem poll_delivers_one_event_witness :
    poll envW { stW with events := [Except.error (AquamarineApiError.particleExpired ("x"))] } =
      ({ poll_pools envW
          { { stW with events := [Except.error (AquamarineApiError.particleExpired ("x"))] } with
            waker := true } with events := [] },
        some (Except.error (AquamarineApiError.particleExpired ("x")))) :=
  (poll_delivers_one_event envW
    { stW with events := [Except.error (AquamarineApiError.particleExpired ("x"))] }).1
    (Except.error (AquamarineApiError.particleExpired ("x"))) [] rfl

/-- C6: for every completed actor step, `next_peers` is classified by
`scopes.scope`: peers whose resolution fails form the remote group, peers
with a resolved scope form the local group (each peer lands in exactly one
group, by the filter characterizations); and on a `Pending` tick the poll
result is exactly the pipeline that re-ingests every local routing effect
via `ingest` with no function override before appending the remote effects
as events. -/
theorem poll_classifies_and_reingests (env : Env) :
    (∀ peers, (splitPeers env peers).1 = peers.filter (fun pid => scopeIsErr env pid) ∧
      (splitPeers env peers).2 = peers.filterMap (fun pid => okScope env pid)) ∧
    (∀ peers pid, pid ∈ peers → scopeIsErr env pid = true →
      pid ∈ (splitPeers env peers).1) ∧
    (∀ peers pid s, pid ∈ peers → env.scope pid = Except.ok s →
      s ∈ (splitPeers env peers).2) ∧
    (∀ st : Plumber, st.events = [] →
      poll env st =
        ({ tickPendingState env (poll_pools env { st with waker := true }) with
            events := (tickPendingState env (poll_pools env { st with waker := true })).events ++
              (tickGather env (poll_pools env { st with waker := true })).remote.map Except.ok },
          none)) := by
  refine ⟨?_, ?_, ?_, ?_⟩
  · intro peers
    rw [splitPeers_eq]
    exact ⟨rfl, rfl⟩
  · intro peers pid hm hf
    rw [splitPeers_eq]
    exact List.mem_filter.mpr ⟨hm, hf⟩
  · intro peers pid s hm hs
    rw [splitPeers_eq]
    exact List.mem_filterMap.mpr ⟨pid, hm, (okScope_eq_some env pid s).mpr hs⟩
  · intro st h
    obtain ⟨ev, ha, wa, hf, wp, wk, wu, cf⟩ := st
    simp only at h
    subst h
    rfl

/-- Witness for C6: a locally resolved peer lands in the local group. -/
theorem poll_classifies_and_reingests_witness :
    PeerScope.host ∈ (splitPeers envW [0]).2 :=
  (poll_classifies_and_reingests envW).2.2.1 [0] 0 PeerScope.host (by simp) rfl

/-- C10: for a completed actor step, a remote routing effect is produced iff
some next peer fails scope resolution, and a local routing effect is
produced iff some next peer resolves to a local scope - in particular an
empty or entirely-local `next_peers` list yields no event - and no routing
effect with an empty peer list is ever emitted by the gather loop. -/
theorem routing_effects_characterization (env : Env) :
    (∀ r : StepResult,
      ((actorStepEffects env r).1 ≠ none ↔ ∃ pid ∈ r.next_peers, scopeIsErr env pid = true) ∧
      ((actorStepEffects env r).2 ≠ none ↔
        ∃ pid ∈ r.next_peers, ∃ s, env.scope pid = Except.ok s) ∧
      (∀ eff, (actorStepEffects env r).1 = some eff → eff.next_peers ≠ []) ∧
      (∀ eff, (actorStepEffects env r).2 = some eff → eff.next_peers ≠ [])) ∧
    (∀ ps actors, (∀ e ∈ (poll_actors env ps actors).remote, e.next_peers ≠ []) ∧
      (∀ e ∈ (poll_actors env ps actors).locals, e.next_peers ≠ [])) := by
  refine ⟨fun r => ⟨actorStepEffects_remote_iff env r, actorStepEffects_locals_iff env r,
    fun eff h => actorStepEffects_remote_ne_nil env r eff h,
    fun eff h => actorStepEffects_locals_ne_nil env r eff h⟩,
    fun ps actors => ⟨poll_actors_remote_ne_nil env ps actors,
      poll_actors_locals_ne_nil env ps actors⟩⟩

/-- Witness for C10: a step with one unresolvable peer produces a remote
effect. -/
theorem routing_effects_characterization_witness :
    (actorStepEffects envW { particle := pW, next_peers := [5], vm_returned := true }).1 ≠ none :=
  ((routing_effects_characterization envW).1
    { particle := pW, next_peers := [5], vm_returned := true }).1.mpr
    ⟨5, by simp, rfl⟩

end Aqua
